import Mathlib

/-!
Verification development for the `nodejs-demo-app` repository: a two-route
Express HTTP application (`index.js`), shallowly embedded in Lean 4.

The embedding models:
* the JavaScript runtime primitives the app calls, faithful to their
  documented behaviour: `new Date().toISOString()` (ISO-8601 formatting of
  the wall-clock date), `process.uptime()` (seconds since process start),
  `process.env.PORT || 3000` (JavaScript falsiness on strings);
* the Express framework behaviour the app relies on: `express.json()`
  body-parsing middleware (rejects a present, `application/json`-typed,
  malformed body with HTTP 400 before any route runs), `app.get` routing
  (which matches paths case-insensitively ignoring one trailing slash —
  `caseSensitive` and `strict` routing are disabled by default — and also
  answers `HEAD` requests, plus the router's automatic `OPTIONS`
  response), and the default 404 for unmatched requests;
* the two route handlers of `index.js` themselves, verbatim.

Wall-clock instants carry both a seconds value (rational, standing in for
the runtime's floating-point seconds) and a broken-down calendar date, the
two views `process.uptime()` and `new Date()` expose.
-/

/-! ## Decimal digits and fixed-width padding (`Date.prototype.toISOString` building block) -/

/-- The decimal digit character for `n < 10`. -/
def digitChar : Nat → Char
  | 0 => '0'
  | 1 => '1'
  | 2 => '2'
  | 3 => '3'
  | 4 => '4'
  | 5 => '5'
  | 6 => '6'
  | 7 => '7'
  | 8 => '8'
  | 9 => '9'
  | _ => '*'

/-- Is `c` an ASCII decimal digit? -/
def isDigitCh (c : Char) : Bool :=
  decide (48 ≤ c.toNat) && decide (c.toNat ≤ 57)

/-- Numeric value of an ASCII digit character. -/
def digitVal (c : Char) : Nat := c.toNat - 48

/-- `n` rendered as exactly `k` decimal digits, zero-padded on the left
(the rendering `toISOString` uses for every numeric field). -/
def padNat : Nat → Nat → List Char
  | 0, _ => []
  | k + 1, n => padNat k (n / 10) ++ [digitChar (n % 10)]

/-- Read exactly `k` decimal digit characters, accumulating their value. -/
def readNat : Nat → Nat → List Char → Option (Nat × List Char)
  | 0, acc, s => some (acc, s)
  | k + 1, acc, c :: s => if isDigitCh c then readNat k (acc * 10 + digitVal c) s else none
  | _ + 1, _, [] => none

/-- Consume one expected character. -/
def expectCh (c : Char) : List Char → Option (List Char)
  | x :: rest => if x = c then some rest else none
  | [] => none

/-! ## Calendar dates, `toISOString`, and an ISO-8601 parser -/

/-- A broken-down UTC calendar date-time, the content of a JavaScript
`Date` as exposed by `toISOString` (year, month 1-12, day, hour, minute,
second, milliseconds). -/
structure DateTime where
  year : Nat
  month : Nat
  day : Nat
  hour : Nat
  minute : Nat
  second : Nat
  ms : Nat
deriving DecidableEq

/-- Gregorian leap-year test. -/
def isLeap (y : Nat) : Bool :=
  (decide (y % 4 = 0) && decide (y % 100 ≠ 0)) || decide (y % 400 = 0)

/-- Number of days in a month of a given year. -/
def daysInMonth (y m : Nat) : Nat :=
  if m = 2 then (if isLeap y then 29 else 28)
  else if m = 4 ∨ m = 6 ∨ m = 9 ∨ m = 11 then 30
  else 31

/-- Calendar validity of a broken-down date-time (the range `Date` can
render with a four-digit year). -/
def validDT (d : DateTime) : Bool :=
  decide (d.year ≤ 9999) && decide (1 ≤ d.month) && decide (d.month ≤ 12) &&
  decide (1 ≤ d.day) && decide (d.day ≤ daysInMonth d.year d.month) &&
  decide (d.hour ≤ 23) && decide (d.minute ≤ 59) && decide (d.second ≤ 59) &&
  decide (d.ms ≤ 999)

/-- `Date.prototype.toISOString`: `YYYY-MM-DDTHH:mm:ss.sssZ`. -/
def toISOString (d : DateTime) : List Char :=
  padNat 4 d.year ++ ('-' :: (padNat 2 d.month ++ ('-' :: (padNat 2 d.day ++
  ('T' :: (padNat 2 d.hour ++ (':' :: (padNat 2 d.minute ++ (':' :: (padNat 2 d.second ++
  ('.' :: (padNat 3 d.ms ++ ['Z']))))))))))))

/-- Parser for the ISO-8601 format produced by `toISOString`, including the
calendar-validity check: succeeds exactly on valid ISO-8601 date-time
strings of that shape, returning the denoted date-time. -/
def parseISO (s : List Char) : Option DateTime :=
  match readNat 4 0 s with
  | none => none
  | some (y, r1) =>
    match expectCh '-' r1 with
    | none => none
    | some r2 =>
      match readNat 2 0 r2 with
      | none => none
      | some (mo, r3) =>
        match expectCh '-' r3 with
        | none => none
        | some r4 =>
          match readNat 2 0 r4 with
          | none => none
          | some (da, r5) =>
            match expectCh 'T' r5 with
            | none => none
            | some r6 =>
              match readNat 2 0 r6 with
              | none => none
              | some (ho, r7) =>
                match expectCh ':' r7 with
                | none => none
                | some r8 =>
                  match readNat 2 0 r8 with
                  | none => none
                  | some (mi, r9) =>
                    match expectCh ':' r9 with
                    | none => none
                    | some r10 =>
                      match readNat 2 0 r10 with
                      | none => none
                      | some (se, r11) =>
                        match expectCh '.' r11 with
                        | none => none
                        | some r12 =>
                          match readNat 3 0 r12 with
                          | none => none
                          | some (msv, r13) =>
                            match expectCh 'Z' r13 with
                            | none => none
                            | some r14 =>
                              if r14.isEmpty && validDT ⟨y, mo, da, ho, mi, se, msv⟩ then
                                some ⟨y, mo, da, ho, mi, se, msv⟩
                              else none

/-- Chronological (lexicographic) order on broken-down date-times. -/
def dtLe (a b : DateTime) : Prop :=
  a.year < b.year ∨ (a.year = b.year ∧
  (a.month < b.month ∨ (a.month = b.month ∧
  (a.day < b.day ∨ (a.day = b.day ∧
  (a.hour < b.hour ∨ (a.hour = b.hour ∧
  (a.minute < b.minute ∨ (a.minute = b.minute ∧
  (a.second < b.second ∨ (a.second = b.second ∧ a.ms ≤ b.ms)))))))))))

instance (a b : DateTime) : Decidable (dtLe a b) := by
  unfold dtLe; infer_instance

/-- Timestamp strings ordered by the date-times they denote: both parse as
valid ISO-8601 and the denoted instants are chronologically ordered. -/
def tsLe (t1 t2 : List Char) : Prop :=
  ∃ d1 d2, parseISO t1 = some d1 ∧ parseISO t2 = some d2 ∧ dtLe d1 d2


/-! ## JSON well-formedness (the `JSON.parse` grammar, used by `express.json()`) -/

/-- JSON whitespace. -/
def isWsCh (c : Char) : Bool :=
  decide (c = ' ') || decide (c = '\t') || decide (c = '\n') || decide (c = '\r')

/-- Drop leading JSON whitespace. -/
def skipWs (s : List Char) : List Char := s.dropWhile isWsCh

/-- Hexadecimal digit (for string escapes). -/
def isHexCh (c : Char) : Bool :=
  isDigitCh c || (decide ('a' ≤ c) && decide (c ≤ 'f')) || (decide ('A' ≤ c) && decide (c ≤ 'F'))

/-- Consume the remainder of a JSON string literal (the opening quote
already consumed), honouring escape sequences. -/
def jsonStrRest : List Char → Option (List Char)
  | [] => none
  | '"' :: rest => some rest
  | '\\' :: rest =>
    match rest with
    | [] => none
    | 'u' :: a :: b :: c :: d :: r =>
      if isHexCh a && isHexCh b && isHexCh c && isHexCh d then jsonStrRest r else none
    | e :: r =>
      if e = '"' ∨ e = '\\' ∨ e = '/' ∨ e = 'b' ∨ e = 'f' ∨ e = 'n' ∨ e = 'r' ∨ e = 't' then
        jsonStrRest r
      else none
  | _ :: rest => jsonStrRest rest

/-- Consume an optional exponent part of a JSON number. -/
def jsonExpPart (s : List Char) : Option (List Char) :=
  match s with
  | c :: r =>
    if c = 'e' ∨ c = 'E' then
      let r1 := match r with
        | '+' :: rr => rr
        | '-' :: rr => rr
        | _ => r
      match r1 with
      | d :: _ => if isDigitCh d then some (r1.dropWhile isDigitCh) else none
      | [] => none
    else some s
  | [] => some s

/-- Consume an optional fraction part, then the exponent part. -/
def jsonFracPart (s : List Char) : Option (List Char) :=
  match s with
  | '.' :: r =>
    (match r with
     | d :: _ => if isDigitCh d then jsonExpPart (r.dropWhile isDigitCh) else none
     | [] => none)
  | _ => jsonExpPart s

/-- Consume a JSON number (no leading zeros, optional sign/fraction/exponent). -/
def jsonNum (s : List Char) : Option (List Char) :=
  let s1 := match s with
    | '-' :: r => r
    | _ => s
  match s1 with
  | c :: r =>
    if isDigitCh c then
      if c = '0' then
        match r with
        | c2 :: _ => if isDigitCh c2 then none else jsonFracPart r
        | [] => some []
      else jsonFracPart (r.dropWhile isDigitCh)
    else none
  | [] => none

mutual

/-- Consume one JSON value (fuelled recursive-descent). -/
def jsonVal : Nat → List Char → Option (List Char)
  | 0, _ => none
  | f + 1, s =>
    match skipWs s with
    | '\x7b' :: rest => jsonObj f rest
    | '[' :: rest => jsonArr f rest
    | '"' :: rest => jsonStrRest rest
    | 't' :: 'r' :: 'u' :: 'e' :: rest => some rest
    | 'f' :: 'a' :: 'l' :: 's' :: 'e' :: rest => some rest
    | 'n' :: 'u' :: 'l' :: 'l' :: rest => some rest
    | s2 => jsonNum s2

/-- Consume an object body after the opening brace. -/
def jsonObj : Nat → List Char → Option (List Char)
  | 0, _ => none
  | f + 1, s =>
    match skipWs s with
    | '\x7d' :: rest => some rest
    | s2 => jsonPairs f s2

/-- Consume one or more `"key": value` pairs and the closing brace. -/
def jsonPairs : Nat → List Char → Option (List Char)
  | 0, _ => none
  | f + 1, s =>
    match skipWs s with
    | '"' :: rest =>
      (match jsonStrRest rest with
       | none => none
       | some s2 =>
         match skipWs s2 with
         | ':' :: s3 =>
           (match jsonVal f s3 with
            | none => none
            | some s4 =>
              match skipWs s4 with
              | ',' :: s5 => jsonPairs f s5
              | '\x7d' :: s5 => some s5
              | _ => none)
         | _ => none)
    | _ => none

/-- Consume an array body after the opening bracket. -/
def jsonArr : Nat → List Char → Option (List Char)
  | 0, _ => none
  | f + 1, s =>
    match skipWs s with
    | ']' :: rest => some rest
    | s2 => jsonElems f s2

/-- Consume one or more array elements and the closing bracket. -/
def jsonElems : Nat → List Char → Option (List Char)
  | 0, _ => none
  | f + 1, s =>
    match jsonVal f s with
    | none => none
    | some s2 =>
      match skipWs s2 with
      | ',' :: s3 => jsonElems f s3
      | ']' :: s3 => some s3
      | _ => none

end

/-- `JSON.parse` succeeds on `s`: one JSON value followed only by whitespace. -/
def isValidJson (s : List Char) : Bool :=
  match jsonVal (s.length + 1) s with
  | some rest => (skipWs rest).isEmpty
  | none => false

/-- `express.json()` default (strict) acceptance of a non-empty body: the
first non-whitespace character must open an object or array, and the body
must parse as JSON. -/
def strictJsonOk (s : List Char) : Bool :=
  match skipWs s with
  | c :: _ => (decide (c = '\x7b') || decide (c = '[')) && isValidJson s
  | [] => false

/-! ## `const PORT = process.env.PORT || 3000` (index.js line 3) -/

/-- A JavaScript value that can end up in `PORT`: the environment string,
or the numeric default. -/
inductive JsVal where
  | str (s : List Char)
  | num (n : Nat)
deriving DecidableEq

/-- `process.env.PORT || 3000`: JavaScript `||` keeps the environment
string whenever it is present and non-empty (truthy); only an absent or
empty variable falls back to `3000`. No numeric parsing happens. -/
def PORT (envPORT : Option (List Char)) : JsVal :=
  match envPORT with
  | none => JsVal.num 3000
  | some s => if s.isEmpty then JsVal.num 3000 else JsVal.str s

/-- Does a string parse as a TCP port number (non-empty, all decimal
digits, value at most 65535)? -/
def parsePort (s : List Char) : Option Nat :=
  if s ≠ [] ∧ ∀ c ∈ s, isDigitCh c = true then
    if s.foldl (fun a c => a * 10 + digitVal c) 0 ≤ 65535 then
      some (s.foldl (fun a c => a * 10 + digitVal c) 0)
    else none
  else none

/-! ## HTTP requests, responses, and the application (index.js) -/

/-- An inbound HTTP request as the application can observe it: method,
path, the Content-Type header (singled out because `express.json()`
inspects it), raw body, and the remaining inputs the handlers ignore
(query string, other headers). -/
structure Request where
  method : String
  path : String
  contentType : Option (List Char)
  body : List Char
  query : String
  headers : List (String × String)
deriving DecidableEq

/-- The response bodies this application can produce: the two handlers'
JSON objects (index.js lines 10-14 and 18-21), the `express.json()` 400
error, the Express default 404 (`Cannot <method> <path>`), and the Express
router's automatic `OPTIONS` answer. -/
inductive ResBody where
  | welcome (message status : String) (timestamp : List Char)
  | health (status : String) (uptime : ℚ)
  | badRequest
  | notFound (method path : String)
  | options (allow : String)
deriving DecidableEq

/-- An HTTP response: status code and body. -/
structure Response where
  status : Nat
  body : ResBody
deriving DecidableEq

/-- Media type of a Content-Type header value: the part before any `;`
parameters. -/
def mediaType (v : List Char) : List Char := v.takeWhile fun c => !decide (c = ';')

/-- Does the request declare a JSON body (`express.json()` default type
`application/json`)? -/
def isJsonContentType (ct : Option (List Char)) : Bool :=
  match ct with
  | none => false
  | some v => decide (mediaType v = "application/json".toList)

/-- Does `app.use(express.json())` (index.js line 6) reject the request
with HTTP 400? It does exactly when a body is present, typed as JSON, and
fails strict JSON parsing. -/
def jsonRejects (req : Request) : Bool :=
  isJsonContentType req.contentType && !req.body.isEmpty && !strictJsonOk req.body

/-- The process-wide state of the running service: the instant the process
started, which `process.uptime()` measures against. It is set once at
startup and nothing in index.js ever writes it. -/
structure ProcessState where
  startTime : ℚ
deriving DecidableEq

/-- A wall-clock instant, in the two views the runtime exposes to this
app: seconds on the uptime clock (`process.uptime()` reads `sec` minus the
start time) and the broken-down calendar date (`new Date()`). -/
structure Instant where
  sec : ℚ
  date : DateTime
deriving DecidableEq

/-- Chronological order on instants: both clock views non-decreasing. -/
def instantLe (i1 i2 : Instant) : Prop :=
  i1.sec ≤ i2.sec ∧ dtLe i1.date i2.date

/-- ASCII lower-casing of one character (the effect of the
case-insensitive regexes Express compiles routes to). -/
def lowerCh : Char → Char
  | 'A' => 'a'
  | 'B' => 'b'
  | 'C' => 'c'
  | 'D' => 'd'
  | 'E' => 'e'
  | 'F' => 'f'
  | 'G' => 'g'
  | 'H' => 'h'
  | 'I' => 'i'
  | 'J' => 'j'
  | 'K' => 'k'
  | 'L' => 'l'
  | 'M' => 'm'
  | 'N' => 'n'
  | 'O' => 'o'
  | 'P' => 'p'
  | 'Q' => 'q'
  | 'R' => 'r'
  | 'S' => 's'
  | 'T' => 't'
  | 'U' => 'u'
  | 'V' => 'v'
  | 'W' => 'w'
  | 'X' => 'x'
  | 'Y' => 'y'
  | 'Z' => 'z'
  | c => c

/-- Express 4 default route matching normalization (path-to-regexp with
`caseSensitive` and `strict` routing both disabled): comparison with the
registered path is case-insensitive and ignores one trailing slash. -/
def normalizeChars (cs : List Char) : List Char :=
  let ls := cs.map lowerCh
  match ls.reverse with
  | '/' :: c :: rest => (c :: rest).reverse
  | _ => ls

/-- `normalizeChars` on strings: the request path as the default Express
router compares it against a registered route path. -/
def normalizePath (p : String) : String :=
  String.mk (normalizeChars p.toList)

/-- The `message` constant of index.js line 11. -/
def welcomeMessage : String := "Welcome to Node.js Demo App!"

/-- The complete request-to-response behaviour of the app of index.js:
`express.json()` middleware first (it is installed with `app.use` before
the routes), then the `GET /` handler (lines 9-15), then the `GET /health`
handler (lines 17-22), then the Express router defaults. Route paths are
compared through `normalizePath` (default routing is case-insensitive and
ignores one trailing slash); Express serves `HEAD` through `app.get`
handlers and answers `OPTIONS` on known paths automatically; everything
else gets the default 404 (whose body carries the original path). -/
def handle (st : ProcessState) (i : Instant) (req : Request) : Response :=
  if jsonRejects req then ⟨400, ResBody.badRequest⟩
  else if (req.method = "GET" ∨ req.method = "HEAD") ∧ normalizePath req.path = "/" then
    ⟨200, ResBody.welcome welcomeMessage "success" (toISOString i.date)⟩
  else if (req.method = "GET" ∨ req.method = "HEAD") ∧ normalizePath req.path = "/health" then
    ⟨200, ResBody.health "healthy" (i.sec - st.startTime)⟩
  else if req.method = "OPTIONS" ∧
      (normalizePath req.path = "/" ∨ normalizePath req.path = "/health") then
    ⟨200, ResBody.options "GET,HEAD"⟩
  else ⟨404, ResBody.notFound req.method req.path⟩

/-- One served request: the response, and the process state afterwards.
The handlers of index.js assign no variable and call no effectful API
other than `res.json`, so the state passes through unchanged. -/
def step (st : ProcessState) (i : Instant) (req : Request) : Response × ProcessState :=
  (handle st i req, st)

/-- Serve a sequence of requests, threading the process state. -/
def serve : ProcessState → List (Instant × Request) → List Response × ProcessState
  | st, [] => ([], st)
  | st, ev :: evs =>
    ((step st ev.1 ev.2).1 :: (serve (step st ev.1 ev.2).2 evs).1,
     (serve (step st ev.1 ev.2).2 evs).2)

/-- Structural similarity of two responses: same status, same body shape,
same constant fields; the clock-derived fields (`timestamp`, `uptime`) may
differ but must be chronologically non-decreasing. -/
def respSimilar (r1 r2 : Response) : Prop :=
  r1.status = r2.status ∧
  match r1.body, r2.body with
  | ResBody.welcome m1 s1 t1, ResBody.welcome m2 s2 t2 => m1 = m2 ∧ s1 = s2 ∧ tsLe t1 t2
  | ResBody.health s1 u1, ResBody.health s2 u2 => s1 = s2 ∧ u1 ≤ u2
  | b1, b2 => b1 = b2

/-! ## Concrete fixtures for witnesses and counterexamples -/

/-- A valid calendar instant used as the wall-clock date in examples. -/
def d0 : DateTime := ⟨2026, 10, 12, 3, 4, 5, 6⟩

/-- A calendar instant one second after `d0`. -/
def dLater : DateTime := ⟨2026, 10, 12, 3, 4, 6, 0⟩

/-- A process that started at uptime-clock origin 0. -/
def st0 : ProcessState := ⟨0⟩

/-- A wall-clock instant: uptime clock 100, calendar date `d0`. -/
def i0 : Instant := ⟨100, d0⟩

/-- A later wall-clock instant: uptime clock 101, calendar date `dLater`. -/
def iLater : Instant := ⟨101, dLater⟩

/-- A plain `GET /` request. -/
def reqRoot : Request := ⟨"GET", "/", none, [], "", []⟩

/-- A plain `GET /health` request. -/
def reqHealth : Request := ⟨"GET", "/health", none, [], "", []⟩

/-- A `GET` spelled `/HEALTH/`: upper case with a trailing slash, which
the default Express router still routes to the health handler. -/
def reqHealthUpper : Request := ⟨"GET", "/HEALTH/", none, [], "", []⟩

lemma readNat_digits (ds : List Char) : ∀ (acc : Nat) (rest : List Char),
    (∀ c ∈ ds, isDigitCh c = true) →
    readNat ds.length acc (ds ++ rest) =
      some (ds.foldl (fun a c => a * 10 + digitVal c) acc, rest) := by
  induction ds with
  | nil => intro acc rest _; rfl
  | cons c ds ih =>
    intro acc rest h
    have hc : isDigitCh c = true := h c (List.mem_cons_self c ds)
    simp only [List.length_cons, List.cons_append, readNat, hc, if_true, List.foldl_cons]
    exact ih _ rest fun x hx => h x (List.mem_cons_of_mem c hx)

lemma padNat_length (k : Nat) : ∀ n, (padNat k n).length = k := by
  induction k with
  | zero => intro n; rfl
  | succ k ih => intro n; simp [padNat, ih]

lemma digitChar_digit (m : Nat) (h : m < 10) :
    isDigitCh (digitChar m) = true ∧ digitVal (digitChar m) = m := by
  interval_cases m <;> exact ⟨by decide, by decide⟩

lemma padNat_digits (k : Nat) : ∀ n c, c ∈ padNat k n → isDigitCh c = true := by
  induction k with
  | zero => intro n c hc; simp [padNat] at hc
  | succ k ih =>
    intro n c hc
    simp only [padNat, List.mem_append, List.mem_singleton] at hc
    rcases hc with hc | hc
    · exact ih _ _ hc
    · subst hc; exact (digitChar_digit _ (Nat.mod_lt _ (by omega))).1

lemma padNat_foldl (k : Nat) : ∀ (acc n : Nat), n < 10 ^ k →
    (padNat k n).foldl (fun a c => a * 10 + digitVal c) acc = acc * 10 ^ k + n := by
  induction k with
  | zero =>
    intro acc n h
    simp only [pow_zero] at h
    simp only [padNat, List.foldl_nil, pow_zero]
    omega
  | succ k ih =>
    intro acc n h
    have hdiv : n / 10 < 10 ^ k := by rw [pow_succ] at h; omega
    simp only [padNat, List.foldl_append, List.foldl_cons, List.foldl_nil]
    rw [ih acc (n / 10) hdiv, (digitChar_digit (n % 10) (by omega)).2, pow_succ,
      ← Nat.mul_assoc]
    generalize acc * 10 ^ k = Q
    omega

lemma readNat_padNat (k n : Nat) (rest : List Char) (h : n < 10 ^ k) :
    readNat k 0 (padNat k n ++ rest) = some (n, rest) := by
  have h1 := readNat_digits (padNat k n) 0 rest (padNat_digits k n)
  rw [padNat_length] at h1
  rw [h1, padNat_foldl k 0 n h]
  simp

lemma expectCh_cons (c : Char) (s : List Char) : expectCh c (c :: s) = some s := by
  simp [expectCh]

lemma daysInMonth_le_31 (y m : Nat) : daysInMonth y m ≤ 31 := by
  unfold daysInMonth
  split
  · split <;> omega
  · split <;> omega

lemma validDT_bounds (d : DateTime) (h : validDT d = true) :
    d.year < 10 ^ 4 ∧ d.month < 10 ^ 2 ∧ d.day < 10 ^ 2 ∧ d.hour < 10 ^ 2 ∧
    d.minute < 10 ^ 2 ∧ d.second < 10 ^ 2 ∧ d.ms < 10 ^ 3 := by
  unfold validDT at h
  simp only [Bool.and_eq_true, decide_eq_true_eq] at h
  have h31 := daysInMonth_le_31 d.year d.month
  have e4 : (10 : Nat) ^ 4 = 10000 := by norm_num
  have e2 : (10 : Nat) ^ 2 = 100 := by norm_num
  have e3 : (10 : Nat) ^ 3 = 1000 := by norm_num
  omega

/-- Round trip: the string `toISOString` produces for a calendar-valid
date-time is valid ISO-8601 and denotes exactly that date-time. -/
lemma parseISO_toISOString (d : DateTime) (h : validDT d = true) :
    parseISO (toISOString d) = some d := by
  obtain ⟨hy, hmo, hda, hho, hmi, hse, hms⟩ := validDT_bounds d h
  simp only [toISOString, parseISO, readNat_padNat, expectCh_cons,
    hy, hmo, hda, hho, hmi, hse, hms]
  simp [h]

/-! ### Service-level helper lemmas -/

lemma serve_state (st : ProcessState) (evs : List (Instant × Request)) :
    (serve st evs).2 = st := by
  induction evs generalizing st with
  | nil => rfl
  | cons ev evs ih => simp [serve, step, ih]

lemma serve_length (st : ProcessState) (evs : List (Instant × Request)) :
    (serve st evs).1.length = evs.length := by
  induction evs generalizing st with
  | nil => rfl
  | cons ev evs ih => simp [serve, step, ih]

lemma normalizePath_health : normalizePath "/health" = "/health" := by decide

/-- The router's path insensitivity in action: `GET /HEALTH/` reaches the
health handler exactly as `GET /health` does. -/
lemma handle_path_insensitive (st : ProcessState) (i : Instant) :
    handle st i reqHealthUpper = handle st i reqHealth := by
  simp [handle, jsonRejects, isJsonContentType, reqHealthUpper, reqHealth,
    show normalizePath "/HEALTH/" = "/health" from by decide, normalizePath_health]

/-! ## The claims -/

/-- C6 (amended): `app.listen` receives the default numeric port 3000
exactly when the `PORT` environment variable is unset or set to the empty
string; any other value — including ones that do not parse as a port
number — is passed through unchanged as a string. -/
theorem c6_port_default (env : Option (List Char)) :
    PORT env = JsVal.num 3000 ↔ env = none ∨ env = some [] := by
  cases env with
  | none => simp [PORT]
  | some s => cases s with
    | nil => simp [PORT]
    | cons c cs => simp [PORT]

/-- C6 counterexample: `PORT=abc` does not parse as a port number, yet the
service does not fall back to 3000 — it passes the string `"abc"` to
`app.listen` — so the claim's "unset or does not parse as a port number
implies port 3000" fails on the code. -/
theorem c6_counterexample :
    parsePort ("abc".toList) = none ∧
    PORT (some ("abc".toList)) = JsVal.str ("abc".toList) ∧
    PORT (some ("abc".toList)) ≠ JsVal.num 3000 := by decide

/-- C8: issuing the same request twice, the second at a later instant,
yields structurally identical responses — same status, same body shape,
same constant fields — with the clock-derived `timestamp`/`uptime` fields
non-decreasing. -/
theorem c8_idempotent (st : ProcessState) (req : Request) (i1 i2 : Instant)
    (h12 : instantLe i1 i2) (hv1 : validDT i1.date = true) (hv2 : validDT i2.date = true) :
    respSimilar (handle st i1 req) (handle st i2 req) := by
  obtain ⟨hsec, hdt⟩ := h12
  by_cases hj : jsonRejects req = true
  · simp [handle, hj, respSimilar]
  · have hj' : jsonRejects req = false := by simpa using hj
    by_cases h1 : (req.method = "GET" ∨ req.method = "HEAD") ∧ normalizePath req.path = "/"
    · have e1 : handle st i1 req =
          ⟨200, ResBody.welcome welcomeMessage "success" (toISOString i1.date)⟩ := by
        simp [handle, hj', h1]
      have e2 : handle st i2 req =
          ⟨200, ResBody.welcome welcomeMessage "success" (toISOString i2.date)⟩ := by
        simp [handle, hj', h1]
      rw [e1, e2]
      exact ⟨rfl, rfl, rfl, i1.date, i2.date,
        parseISO_toISOString _ hv1, parseISO_toISOString _ hv2, hdt⟩
    · by_cases h2 : (req.method = "GET" ∨ req.method = "HEAD") ∧
          normalizePath req.path = "/health"
      · have e1 : handle st i1 req =
            ⟨200, ResBody.health "healthy" (i1.sec - st.startTime)⟩ := by
          simp [handle, hj', h1, h2]
        have e2 : handle st i2 req =
            ⟨200, ResBody.health "healthy" (i2.sec - st.startTime)⟩ := by
          simp [handle, hj', h1, h2]
        rw [e1, e2]
        exact ⟨rfl, rfl, sub_le_sub_right hsec _⟩
      · by_cases h3 : req.method = "OPTIONS" ∧
            (normalizePath req.path = "/" ∨ normalizePath req.path = "/health")
        · have e1 : handle st i1 req = ⟨200, ResBody.options "GET,HEAD"⟩ := by
            simp [handle, hj', h1, h2, h3]
          have e2 : handle st i2 req = ⟨200, ResBody.options "GET,HEAD"⟩ := by
            simp [handle, hj', h1, h2, h3]
          rw [e1, e2]
          exact ⟨rfl, rfl⟩
        · have e1 : handle st i1 req = ⟨404, ResBody.notFound req.method req.path⟩ := by
            simp [handle, hj', h1, h2, h3]
          have e2 : handle st i2 req = ⟨404, ResBody.notFound req.method req.path⟩ := by
            simp [handle, hj', h1, h2, h3]
          rw [e1, e2]
          exact ⟨rfl, rfl⟩

/-- C8 witness: the same `GET /` issued at uptime 100 and again at uptime
101 (one second later on the calendar clock). -/
theorem c8_idempotent_witness :
    instantLe i0 iLater ∧ validDT d0 = true ∧ validDT dLater = true ∧
    respSimilar (handle st0 i0 reqRoot) (handle st0 iLater reqRoot) :=
  ⟨⟨show (100 : ℚ) ≤ 101 by norm_num, by decide⟩, by decide, by decide,
   c8_idempotent st0 reqRoot i0 iLater
     ⟨show (100 : ℚ) ≤ 101 by norm_num, by decide⟩ (by decide) (by decide)⟩

/-- C9: serving any sequence of requests is total — every request gets
exactly one response — and leaves the process-wide state untouched: in
particular `process_start_time` is unchanged by every request. -/
theorem c9_total_no_mutation (st : ProcessState) (evs : List (Instant × Request)) :
    (serve st evs).1.length = evs.length ∧ (serve st evs).2 = st :=
  ⟨serve_length st evs, serve_state st evs⟩

